import Mathlib

/-!
# todo_golang: the four todo handlers of `main.go` over a document collection

`main.go` is an HTTP layer (`fetchTodos`, `addTodod`, `updateTodo`, `deleteTodo`) over one
MongoDB collection reached through the `mgo` driver.  The handlers are embedded as pure
functions from the collection before the request to the collection after it together with
the trace of what the handler did (body decode, store call, `rnd.JSON` calls).

The driver and the standard-library functions the handlers call (`strings.TrimSpace`,
`bson.IsObjectIdHex`, `bson.ObjectIdHex`, `ObjectId.Hex`, struct-tag lookup, `Insert`,
`Update`, `Remove`, `Find(..).All`) are modelled from their documented behaviour; every such
definition says so in its comment.

Scope of the model: stored documents hold values of the four BSON kinds this program writes
(ObjectId, string, bool, datetime); a transport failure of a store call returns the error
and leaves the collection as it was; a response is the status and body a handler passes to
`rnd.JSON`, not the bytes on the wire.
-/

namespace TodoGolang

/-! ## Go strings, object ids, time -/

/-- A byte. -/
abbrev Byte := Fin 256

/-- A Go `string` value at run time: a sequence of bytes. -/
abbrev GoString := List Byte

/-- `bson.ObjectId` is declared `type ObjectId string`: the raw bytes of the id. -/
abbrev ObjectId := GoString

/-- A `time.Time` instant, as the number of milliseconds since the Unix epoch (the
resolution of a BSON datetime). -/
abbrev Time := Int

/-- The zero `time.Time` (January 1, year 1, 00:00 UTC) in Unix milliseconds. -/
def zeroTime : Time := -62135596800000

/-! ## encoding/hex and the ObjectId helpers -/

/-- One digit of `hex.EncodeToString`: the table is `0123456789abcdef`. -/
def hexDigit (n : Nat) : Byte :=
  if n < 10 then Fin.ofNat (48 + n) else Fin.ofNat (87 + n)

/-- `ObjectId.Hex`: `hex.EncodeToString` of the id bytes, two lower-case digits per byte. -/
def Hex : ObjectId → GoString
  | [] => []
  | b :: rest => hexDigit (b.val / 16) :: hexDigit (b.val % 16) :: Hex rest

/-- `fromHexChar` of encoding/hex: the value of one hexadecimal digit, either case. -/
def fromHexChar (c : Byte) : Option Nat :=
  if 48 ≤ c.val ∧ c.val ≤ 57 then some (c.val - 48)
  else if 97 ≤ c.val ∧ c.val ≤ 102 then some (c.val - 87)
  else if 65 ≤ c.val ∧ c.val ≤ 70 then some (c.val - 55)
  else none

/-- `hex.DecodeString`: `none` stands for its error (odd length or a byte that is not a
hexadecimal digit). -/
def hexDecode : GoString → Option (List Byte)
  | [] => some []
  | [_] => none
  | a :: b :: rest =>
    match fromHexChar a, fromHexChar b, hexDecode rest with
    | some hi, some lo, some tl => some (Fin.ofNat (hi * 16 + lo) :: tl)
    | _, _, _ => none

/-- `bson.IsObjectIdHex`: the length is 24 and `hex.DecodeString` succeeds. -/
def IsObjectIdHex (s : GoString) : Bool :=
  if s.length ≠ 24 then false else (hexDecode s).isSome

/-- `bson.ObjectIdHex`: the decoded id; `none` stands for its panic (the string does not
decode, or not to 12 bytes). -/
def ObjectIdHex (s : GoString) : Option ObjectId :=
  match hexDecode s with
  | some d => if d.length = 12 then some d else none
  | none => none

/-- A hexadecimal character: `0`..`9`, `a`..`f` or `A`..`F`. -/
def isHexChar (c : Byte) : Bool :=
  decide ((48 ≤ c.val ∧ c.val ≤ 57) ∨ (97 ≤ c.val ∧ c.val ≤ 102) ∨ (65 ≤ c.val ∧ c.val ≤ 70))

/-- A syntactically valid id in the words of the specification: exactly 24 hexadecimal
characters. -/
def is24HexChars (s : GoString) : Prop :=
  s.length = 24 ∧ ∀ c ∈ s, isHexChar c = true

/-! ## strings.TrimSpace -/

/-- Byte length of the white-space rune (`unicode.IsSpace`) that starts `s` in UTF-8, or 0
when `s` does not start with one.  The white-space runes are U+0009..U+000D, U+0020, U+0085,
U+00A0, U+1680, U+2000..U+200A, U+2028, U+2029, U+202F, U+205F and U+3000. -/
def leadingSpace (s : GoString) : Nat :=
  match s with
  | [] => 0
  | b :: rest =>
    if (9 ≤ b.val ∧ b.val ≤ 13) ∨ b.val = 32 then 1
    else if b.val = 0xC2 then
      match rest with
      | c :: _ => if c.val = 0x85 ∨ c.val = 0xA0 then 2 else 0
      | [] => 0
    else if b.val = 0xE1 then
      match rest with
      | c :: d :: _ => if c.val = 0x9A ∧ d.val = 0x80 then 3 else 0
      | _ => 0
    else if b.val = 0xE2 then
      match rest with
      | c :: d :: _ =>
        if c.val = 0x80 ∧ ((0x80 ≤ d.val ∧ d.val ≤ 0x8A) ∨ d.val = 0xA8 ∨ d.val = 0xA9
            ∨ d.val = 0xAF) then 3
        else if c.val = 0x81 ∧ d.val = 0x9F then 3 else 0
      | _ => 0
    else if b.val = 0xE3 then
      match rest with
      | c :: d :: _ => if c.val = 0x80 ∧ d.val = 0x80 then 3 else 0
      | _ => 0
    else 0

/-- Byte length of the white-space rune that ends the string whose bytes, last one first,
are `r`; 0 when it does not end with one. -/
def trailingSpace (r : GoString) : Nat :=
  match r with
  | [] => 0
  | b :: rest =>
    if (9 ≤ b.val ∧ b.val ≤ 13) ∨ b.val = 32 then 1
    else
      match rest with
      | c :: rest2 =>
        if c.val = 0xC2 ∧ (b.val = 0x85 ∨ b.val = 0xA0) then 2
        else
          match rest2 with
          | d :: _ => if leadingSpace [d, c, b] = 3 then 3 else 0
          | [] => 0
      | [] => 0

/-- Drop white-space runes from the front, at most `fuel` of them. -/
def trimFront : Nat → GoString → GoString
  | 0, s => s
  | fuel + 1, s => if leadingSpace s = 0 then s else trimFront fuel (s.drop (leadingSpace s))

/-- Drop white-space runes from the back of the string whose reversed bytes are `r`. -/
def trimBack : Nat → GoString → GoString
  | 0, r => r
  | fuel + 1, r => if trailingSpace r = 0 then r else trimBack fuel (r.drop (trailingSpace r))

/-- `strings.TrimSpace`: the string without its leading and trailing white-space runes.
Every dropped rune is at least one byte, so the length of the string is enough fuel. -/
def TrimSpace (s : GoString) : GoString :=
  let front := trimFront s.length s
  (trimBack front.length front.reverse).reverse

/-! ## Struct tags and the BSON field names of `todoModel` -/

/-- The scan of `reflect.StructTag.Lookup` over the rest of a quoted value: the characters
up to the closing quote and what follows it; `none` when the quote is never closed.  A
backslash takes the next character with it. -/
def scanQuoted : List Char → List Char → Option (List Char × List Char)
  | _, [] => none
  | acc, '"' :: rest => some (acc, rest)
  | acc, '\\' :: c :: rest => scanQuoted (acc ++ ['\\', c]) rest
  | acc, c :: rest => scanQuoted (acc ++ [c]) rest

/-- Whether `reflect.StructTag.Lookup` takes `c` as part of a key: above the space, and
neither a colon, a quote nor DEL. -/
def tagNameChar (c : Char) : Bool :=
  decide (c.toNat > 32) && c != ':' && c != '"' && decide (c.toNat ≠ 0x7f)

/-- `reflect.StructTag.Lookup` on the conventional format `key:"value" key:"value"`.
Walks the pairs; stops (not found) at the first piece that is not `key:"value"` with the
quote right after the colon.  Values with escapes are returned as written (no tag of this
program has any). -/
def tagLookup : Nat → List Char → List Char → Option (List Char)
  | 0, _, _ => none
  | fuel + 1, tag, key =>
    let tag := tag.dropWhile (fun c => c == ' ')
    if tag.isEmpty then none
    else
      let name := tag.takeWhile tagNameChar
      match tag.dropWhile tagNameChar with
      | ':' :: '"' :: rest =>
        if name.isEmpty then none
        else
          match scanQuoted [] rest with
          | none => none
          | some (value, rest2) => if name = key then some value else tagLookup fuel rest2 key
      | _ => none

/-- `reflect.StructTag.Get`: the value of `key` in the tag, the empty string when
`Lookup` does not find it. -/
def tagGet (tag key : List Char) : List Char :=
  match tagLookup (tag.length + 1) tag key with
  | some v => v
  | none => []

/-- `strings.Split(s, ",")` on the characters of `s`: the pieces between the commas
(`cur` is the piece being read). -/
def splitComma : List Char → List Char → List (List Char)
  | cur, [] => [cur]
  | cur, ',' :: rest => cur :: splitComma [] rest
  | cur, c :: rest => splitComma (cur ++ [c]) rest

/-- What `getStructInfo` of mgo's bson package keeps for one struct field. -/
structure fieldInfo where
  Key : String
  OmitEmpty : Bool
deriving DecidableEq, Repr

/-- One round of `getStructInfo` (mgo bson), for the exported field `name` with struct tag
`tag`: `tag := field.Tag.Get("bson")`; a tag without any colon is taken whole; `-` skips
the field (`none`); the part before the first comma is the key and `omitempty` after it
sets the flag (the other flags, which no tag of this program carries, are not modelled);
an empty key falls back to `strings.ToLower(field.Name)`. -/
def getFieldInfo (name tag : String) : Option fieldInfo :=
  let t := tagGet tag.toList "bson".toList
  let t := if t = [] ∧ ¬ tag.toList.contains ':' then tag.toList else t
  if t = ['-'] then none
  else
    let fields := splitComma [] t
    let key := fields.headD []
    some { Key := String.mk (if key ≠ [] then key else name.toList.map Char.toLower),
           OmitEmpty := (fields.drop 1).contains "omitempty".toList }

/-- The tag of `todoModel.ID`, as written in main.go (a space follows the colon). -/
def tagID : String := "bson: \"_id,omitempty\""

/-- The tag of `todoModel.Title`, as written in main.go. -/
def tagTitle : String := "bson: \"title\""

/-- The tag of `todoModel.Completed`, as written in main.go. -/
def tagCompleted : String := "bson: \"completed\""

/-- The tag of `todoModel.CreatedAt`, as written in main.go. -/
def tagCreatedAt : String := "bson: \"createdAt\""

/-! ## The data model of main.go -/

/-- The struct `todoModel` of main.go: a todo as the program hands it to the store. -/
structure todoModel where
  ID : ObjectId
  Title : GoString
  Completed : Bool
  CreatedAt : Time
deriving DecidableEq, Repr

/-- The struct `todo` of main.go: a todo as JSON bodies carry it. -/
structure todo where
  ID : GoString
  Title : GoString
  Completed : Bool
  CreatedAt : Time
deriving DecidableEq, Repr

/-! ## BSON documents and the collection -/

/-- A BSON value of one of the four kinds this program writes. -/
inductive BVal where
  | oid (b : ObjectId)
  | str (s : GoString)
  | bool (b : Bool)
  | time (t : Time)
deriving DecidableEq, Repr

/-- A BSON document: its elements in order. -/
abbrev Doc := List (String × BVal)

/-- The collection `todo`: its documents in natural (insertion) order, which is the order
`Find(bson.M{})` returns them in. -/
abbrev Store := List Doc

/-- An `interface{}` argument handed to the driver where it expects a document: either a
document (a `bson.M`) or a bare value. -/
inductive Arg where
  | doc (d : Doc)
  | val (v : BVal)
deriving DecidableEq, Repr

/-- The errors a store call returns. -/
inductive StoreErr where
  /-- `mgo.ErrNotFound`: no document matched the selector. -/
  | notFound
  /-- The argument that has to be a BSON document is not one. -/
  | notADocument
  /-- The bson encoder refuses an ObjectId that is not 12 bytes long. -/
  | badObjectId
  /-- A failure between the program and the server (connection lost, timeout, ...). -/
  | transport (code : Nat)
deriving DecidableEq, Repr

/-- What a request takes from outside the program. -/
structure Env where
  /-- Whether the store call of this request fails in transport, and how. -/
  storeFault : Option StoreErr
  /-- What `bson.NewObjectId()` returns. -/
  newObjectId : ObjectId
  /-- What `time.Now()` returns, to the millisecond. -/
  now : Time
  /-- The `_id` the server gives a document inserted without one. -/
  serverId : ObjectId
deriving DecidableEq, Repr

/-- The element the bson encoder writes for one field of a struct, if any: nothing for a
skipped field or an empty `omitempty` one; an ObjectId that is not 12 bytes long makes the
encoder panic, which `Insert` returns as its error. -/
def encodeField (name tag : String) (v : BVal) (isZero : Bool) :
    Except StoreErr (List (String × BVal)) :=
  match getFieldInfo name tag with
  | none => .ok []
  | some info =>
    if info.OmitEmpty && isZero then .ok []
    else
      match v with
      | .oid b => if b.length = 12 then .ok [(info.Key, v)] else .error .badObjectId
      | _ => .ok [(info.Key, v)]

/-- `bson.Marshal` of a `todoModel`: its fields in declaration order, under the keys that
`getStructInfo` derives from the struct tags as written. -/
def Marshal (tm : todoModel) : Except StoreErr Doc :=
  match encodeField "ID" tagID (.oid tm.ID) tm.ID.isEmpty,
        encodeField "Title" tagTitle (.str tm.Title) tm.Title.isEmpty,
        encodeField "Completed" tagCompleted (.bool tm.Completed) (!tm.Completed),
        encodeField "CreatedAt" tagCreatedAt (.time tm.CreatedAt) (tm.CreatedAt == zeroTime) with
  | .ok a, .ok b, .ok c, .ok d => .ok (a ++ b ++ c ++ d)
  | .error e, _, _, _ => .error e
  | _, .error e, _, _ => .error e
  | _, _, .error e, _ => .error e
  | _, _, _, .error e => .error e

/-- Whether the struct field `name` with tag `tag` is the one the element key `k` goes to. -/
def isFieldKey (name tag k : String) : Bool :=
  match getFieldInfo name tag with
  | some info => info.Key == k
  | none => false

/-- The bson decoder on one element of a document read into a `todoModel`: an element whose
key is a field key sets that field when the value converts to the field type (a BSON
ObjectId or string into a field of string kind, a bool into a bool, a datetime into a
`time.Time`); everything else is skipped without error. -/
def setElem (tm : todoModel) (e : String × BVal) : todoModel :=
  if isFieldKey "ID" tagID e.1 then
    match e.2 with
    | .oid b => { tm with ID := b }
    | .str s => { tm with ID := s }
    | _ => tm
  else if isFieldKey "Title" tagTitle e.1 then
    match e.2 with
    | .oid b => { tm with Title := b }
    | .str s => { tm with Title := s }
    | _ => tm
  else if isFieldKey "Completed" tagCompleted e.1 then
    match e.2 with
    | .bool b => { tm with Completed := b }
    | _ => tm
  else if isFieldKey "CreatedAt" tagCreatedAt e.1 then
    match e.2 with
    | .time t => { tm with CreatedAt := t }
    | _ => tm
  else tm

/-- `bson.Unmarshal` of a stored document into a `todoModel`: start from the zero struct
and take the elements in order. -/
def Unmarshal (d : Doc) : todoModel :=
  d.foldl setElem { ID := [], Title := [], Completed := false, CreatedAt := zeroTime }

/-- Whether a document satisfies a selector document of plain `field: value` pairs: every
pair of the selector is the first element of that name in the document. -/
def selects (q d : Doc) : Bool :=
  q.all (fun kv => d.lookup kv.1 == some kv.2)

/-- The document that an update with a plain replacement document `u` (no `$` operator)
leaves in place of `d`: the `_id` of `d`, then the elements of `u`; every other element of
`d` is gone. -/
def replaceDoc (d u : Doc) : Doc :=
  d.filter (fun kv => kv.1 == "_id") ++ u

/-- Replace the first document that satisfies `q`; `none` when no document does. -/
def replaceFirst (q u : Doc) : Store → Option Store
  | [] => none
  | d :: rest =>
    if selects q d then some (replaceDoc d u :: rest)
    else (replaceFirst q u rest).map (fun r => d :: r)

/-- Remove the first document that satisfies `q`; `none` when no document does. -/
def removeFirst (q : Doc) : Store → Option Store
  | [] => none
  | d :: rest =>
    if selects q d then some rest
    else (removeFirst q rest).map (fun r => d :: r)

/-- `db.C(collectionName).Find(bson.M{}).All(&todos)`: every document of the collection,
in order, unmarshalled into a `todoModel`. -/
def All (env : Env) (s : Store) : Except StoreErr (List todoModel) :=
  match env.storeFault with
  | some e => .error e
  | none => .ok (s.map Unmarshal)

/-- `db.C(collectionName).Insert(&tm)`: marshal the struct and append the document; the
server puts an `_id` in front of a document that has none. -/
def Insert (env : Env) (s : Store) (tm : todoModel) : Except StoreErr Store :=
  match env.storeFault with
  | some e => .error e
  | none =>
    match Marshal tm with
    | .error e => .error e
    | .ok d =>
      if d.lookup "_id" = none then .ok (s ++ [("_id", .oid env.serverId) :: d])
      else .ok (s ++ [d])

/-- The document that `Insert` appends for a `todoModel` with a 12-byte id (`Insert_ok`
below): the server `_id`, then the four fields under their lower-cased names. -/
def insertedDoc (env : Env) (tm : todoModel) : Doc :=
  [("_id", .oid env.serverId), ("id", .oid tm.ID), ("title", .str tm.Title),
    ("completed", .bool tm.Completed), ("createdat", .time tm.CreatedAt)]

/-- `db.C(collectionName).Update(selector, update)`: "Update finds a single document
matching the provided selector document and modifies it according to the update document";
`ErrNotFound` when none matches.  Both arguments have to be documents.  An update document
without `$` operators, the only kind this program sends, is a replacement document: the
server puts it in the place of the matched document, whose `_id` alone is kept. -/
def Update (env : Env) (s : Store) (selector update : Arg) : Except StoreErr Store :=
  match env.storeFault with
  | some e => .error e
  | none =>
    match selector, update with
    | .doc q, .doc u =>
      match replaceFirst q u s with
      | some s' => .ok s'
      | none => .error .notFound
    | _, _ => .error .notADocument

/-- `db.C(collectionName).Remove(selector)`: "Remove finds a single document matching the
provided selector document and removes it from the database"; `ErrNotFound` when none
matches.  The selector has to be a document (`RemoveId(id)` is the helper that builds the
selector `bson.D{{"_id", id}}` from an id); a bare value cannot be marshalled as one and
the call returns that error. -/
def Remove (env : Env) (s : Store) (selector : Arg) : Except StoreErr Store :=
  match env.storeFault with
  | some e => .error e
  | none =>
    match selector with
    | .doc q =>
      match removeFirst q s with
      | some s' => .ok s'
      | none => .error .notFound
    | .val _ => .error .notADocument

/-! ## Requests, responses and the handlers -/

/-- `http.StatusProcessing`. -/
def StatusProcessing : Nat := 102

/-- `http.StatusOK`. -/
def StatusOK : Nat := 200

/-- `http.StatusCreated`. -/
def StatusCreated : Nat := 201

/-- `http.StatusBadRequest`. -/
def StatusBadRequest : Nat := 400

/-- `http.StatusBadGateway`. -/
def StatusBadGateway : Nat := 502

/-- A client-error status: the 4xx class. -/
def isClientError (status : Nat) : Prop := 400 ≤ status ∧ status < 500

instance (status : Nat) : Decidable (isClientError status) := by
  unfold isClientError; infer_instance

/-- The error `json.NewDecoder(r.Body).Decode(&t)` returns on a body it cannot decode. -/
structure DecodeErr where
  msg : String
deriving DecidableEq, Repr

/-- A value inside a `renderer.M` map. -/
inductive JVal where
  /-- A string literal of the program. -/
  | lit (s : String)
  /-- A string computed at run time. -/
  | text (s : GoString)
  /-- The raw error of a store call. -/
  | err (e : StoreErr)
  /-- The list of todos. -/
  | todos (l : List todo)
deriving DecidableEq, Repr

/-- What a handler passes to `rnd.JSON` as the body: a `renderer.M` map, or the decode
error itself. -/
inductive Payload where
  | M (fields : List (String × JVal))
  | decodeErr (e : DecodeErr)
deriving DecidableEq, Repr

/-- The store calls a handler issues. -/
inductive StoreCall where
  | find
  | insert (tm : todoModel)
  | update (selector update : Arg)
  | remove (selector : Arg)
deriving DecidableEq, Repr

/-- What a handler does, in order. -/
inductive Event where
  /-- The handler reads and decodes the request body. -/
  | readBody
  /-- The handler issues a store call. -/
  | store (c : StoreCall)
  /-- The handler calls `rnd.JSON(w, status, body)`. -/
  | json (status : Nat) (body : Payload)
  /-- The handler panics (`bson.ObjectIdHex` on a string that is not an id). -/
  | panicked
deriving DecidableEq, Repr

/-- The outcome of one request: the collection afterwards and what the handler did. -/
structure Result where
  db : Store
  trace : List Event
deriving DecidableEq, Repr

/-- The `rnd.JSON` calls of a request, in order: status and body. -/
def Result.responses (r : Result) : List (Nat × Payload) :=
  r.trace.filterMap (fun e => match e with
    | .json status body => some (status, body)
    | _ => none)

/-- The store calls of a request, in order. -/
def Result.storeCalls (r : Result) : List StoreCall :=
  r.trace.filterMap (fun e => match e with
    | .store c => some c
    | _ => none)

/-- Whether the handler read the request body. -/
def Result.readsBody (r : Result) : Bool :=
  r.trace.contains .readBody

/-- The loop of `fetchTodos`: append one `todo` per `todoModel`, with the id in hex. -/
def todolistOf (todos : List todoModel) : List todo :=
  todos.foldl (fun todolist t =>
    todolist ++ [{ ID := Hex t.ID, Title := t.Title, Completed := t.Completed,
                   CreatedAt := t.CreatedAt }]) []

/-- The handler `fetchTodos` (GET /todo). -/
def fetchTodos (env : Env) (s : Store) : Result :=
  match All env s with
  | .error err =>
    { db := s,
      trace := [.store .find,
        .json StatusProcessing (.M [("message", .lit "Failed to load todo list"),
                                    ("error", .err err)])] }
  | .ok todos =>
    { db := s,
      trace := [.store .find, .json StatusOK (.M [("data", .todos (todolistOf todos))])] }

/-- The handler `addTodod` (POST /todo); `body` is what decoding the request body into a
`todo` gives. -/
def addTodod (env : Env) (s : Store) (body : Except DecodeErr todo) : Result :=
  match body with
  | .error err => { db := s, trace := [.readBody, .json StatusProcessing (.decodeErr err)] }
  | .ok t =>
    if t.Title = [] then
      { db := s,
        trace := [.readBody, .json StatusBadRequest (.M [("message", .lit "Title is required")])] }
    else
      let tm : todoModel :=
        { ID := env.newObjectId, Title := t.Title, Completed := false, CreatedAt := env.now }
      match Insert env s tm with
      | .error error =>
        { db := s,
          trace := [.readBody, .store (.insert tm),
            .json StatusProcessing (.M [("message", .lit "Some Errors"), ("error", .err error)])] }
      | .ok s' =>
        { db := s',
          trace := [.readBody, .store (.insert tm),
            .json StatusCreated (.M [("message", .lit "Todo Added"),
                                     ("todo_id", .text (Hex tm.ID))])] }

/-- The handler `updateTodo` (PUT /todo/{id}); `idParam` is `chi.URLParam(r, "id")`.  On
success the handler writes nothing.  A `bson.M` is a Go map, so the order of the two
elements of the update document is not fixed; they are written here in source order, and
nothing below depends on the order of elements with distinct keys. -/
def updateTodo (env : Env) (s : Store) (idParam : GoString) (body : Except DecodeErr todo) :
    Result :=
  let id := TrimSpace idParam
  if !IsObjectIdHex id then
    { db := s, trace := [.json StatusBadRequest (.M [("message", .lit "Invalid ID")])] }
  else
    match body with
    | .error err => { db := s, trace := [.readBody, .json StatusProcessing (.decodeErr err)] }
    | .ok t =>
      if t.Title = [] then
        { db := s,
          trace := [.readBody,
            .json StatusBadGateway (.M [("message", .lit "the Title field is required")])] }
      else
        match ObjectIdHex id with
        | none => { db := s, trace := [.readBody, .panicked] }
        | some oid =>
          let selector := Arg.doc [("id", .oid oid)]
          let update := Arg.doc [("title", .str t.Title), ("completed", .bool t.Completed)]
          match Update env s selector update with
          | .error err =>
            { db := s,
              trace := [.readBody, .store (.update selector update),
                .json StatusProcessing (.M [("message", .lit "failed to update"),
                                            ("error", .err err)])] }
          | .ok s' => { db := s', trace := [.readBody, .store (.update selector update)] }

/-- The handler `deleteTodo` (DELETE /todo/{id}); `idParam` is `chi.URLParam(r, "id")`. -/
def deleteTodo (env : Env) (s : Store) (idParam : GoString) : Result :=
  let id := TrimSpace idParam
  if !IsObjectIdHex id then
    { db := s, trace := [.json StatusBadRequest (.M [("message", .lit "Invalid Id")])] }
  else
    match ObjectIdHex id with
    | none => { db := s, trace := [.panicked] }
    | some oid =>
      let selector := Arg.val (.oid oid)
      match Remove env s selector with
      | .error err =>
        { db := s,
          trace := [.store (.remove selector),
            .json StatusProcessing (.M [("message", .lit "Failed to delete"),
                                        ("error", .err err)])] }
      | .ok s' =>
        { db := s',
          trace := [.store (.remove selector),
            .json StatusOK (.M [("message", .lit "Item Deleted")])] }

/-- A request to the `/todo` routes, with what it takes from outside. -/
inductive Request where
  | list (env : Env)
  | create (env : Env) (body : Except DecodeErr todo)
  | update (env : Env) (idParam : GoString) (body : Except DecodeErr todo)
  | delete (env : Env) (idParam : GoString)

/-- The router of `todoHandler`: each request goes to its handler. -/
def handle (s : Store) : Request → Result
  | .list env => fetchTodos env s
  | .create env body => addTodod env s body
  | .update env idParam body => updateTodo env s idParam body
  | .delete env idParam => deleteTodo env s idParam

/-- The collection after a sequence of requests served one after the other. -/
def run (s : Store) : List Request → Store
  | [] => s
  | req :: rest => run (handle s req).db rest

/-- The todos of the collection as the program reads them. -/
def persisted (s : Store) : List todoModel := s.map Unmarshal

/-- The invariant of the data model: every persisted todo has a non-empty title, and no
two persisted todos share an id. -/
def storeInvariant (s : Store) : Prop :=
  (∀ t ∈ persisted s, t.Title ≠ []) ∧ ((persisted s).map (fun t => t.ID)).Nodup

/-! ## Sample requests -/

/-- A 12-byte id, as `bson.NewObjectId()` returns them. -/
def idA : ObjectId := [0x65, 0x4a, 0x1f, 0x00, 0xab, 0xcd, 0xef, 0x01, 0x23, 0x45, 0x67, 0x89]

/-- Another 12-byte id. -/
def idB : ObjectId := [0x65, 0x4a, 0x1f, 0x00, 0xab, 0xcd, 0xef, 0x01, 0x23, 0x45, 0x67, 0x8a]

/-- The surroundings of a create request that draws `idA`, with a working store. -/
def envA : Env :=
  { storeFault := none, newObjectId := idA, now := 1700000000000,
    serverId := [0x65, 0x4a, 0x1f, 0x01, 0x11, 0x11, 0x11, 0x22, 0x22, 0x00, 0x00, 0x01] }

/-- The surroundings of a create request that draws `idB`, with a working store. -/
def envB : Env :=
  { storeFault := none, newObjectId := idB, now := 1700000060000,
    serverId := [0x65, 0x4a, 0x1f, 0x3d, 0x11, 0x11, 0x11, 0x22, 0x22, 0x00, 0x00, 0x02] }

/-- The surroundings of a request with a working store that creates nothing. -/
def envOk : Env := { storeFault := none, newObjectId := [], now := 1700000120000, serverId := [] }

/-- The surroundings of a request whose store call fails in transport. -/
def envDown : Env :=
  { storeFault := some (.transport 1), newObjectId := idA, now := 1700000000000, serverId := [] }

/-- The decoded body `{"title": "Buy milk", "completed": true}`. -/
def buyMilk : todo :=
  { ID := [], Title := [66, 117, 121, 32, 109, 105, 108, 107], Completed := true,
    CreatedAt := zeroTime }

/-- The decoded body `{"title": "Pay rent"}`. -/
def payRent : todo :=
  { ID := [], Title := [80, 97, 121, 32, 114, 101, 110, 116], Completed := false,
    CreatedAt := zeroTime }

/-- The decoded body `{"title": ""}`. -/
def noTitle : todo := { ID := [], Title := [], Completed := false, CreatedAt := zeroTime }

/-- The store after `buyMilk` was created in the empty store. -/
def storeA : Store := (addTodod envA [] (.ok buyMilk)).db

/-! ## Facts about the library models -/

section Library

theorem getFieldInfo_ID : getFieldInfo "ID" tagID = some { Key := "id", OmitEmpty := false } := by
  rfl

theorem getFieldInfo_Title :
    getFieldInfo "Title" tagTitle = some { Key := "title", OmitEmpty := false } := by
  rfl

theorem getFieldInfo_Completed :
    getFieldInfo "Completed" tagCompleted = some { Key := "completed", OmitEmpty := false } := by
  rfl

theorem getFieldInfo_CreatedAt :
    getFieldInfo "CreatedAt" tagCreatedAt = some { Key := "createdat", OmitEmpty := false } := by
  rfl

/-- With the tags as written, a `todoModel` with a 12-byte id is stored under the
lower-cased field names. -/
theorem Marshal_ok (tm : todoModel) (h : tm.ID.length = 12) :
    Marshal tm = .ok [("id", .oid tm.ID), ("title", .str tm.Title),
      ("completed", .bool tm.Completed), ("createdat", .time tm.CreatedAt)] := by
  simp [Marshal, encodeField, getFieldInfo_ID, getFieldInfo_Title, getFieldInfo_Completed,
    getFieldInfo_CreatedAt, h]

/-- The encoder refuses an id that is not 12 bytes long. -/
theorem Marshal_bad (tm : todoModel) (h : tm.ID.length ≠ 12) :
    Marshal tm = .error .badObjectId := by
  simp [Marshal, encodeField, getFieldInfo_ID, getFieldInfo_Title, getFieldInfo_Completed,
    getFieldInfo_CreatedAt, h]

theorem Insert_ok (env : Env) (s : Store) (tm : todoModel) (hf : env.storeFault = none)
    (h : tm.ID.length = 12) : Insert env s tm = .ok (s ++ [insertedDoc env tm]) := by
  have hl : List.lookup "_id" [("id", BVal.oid tm.ID), ("title", BVal.str tm.Title),
      ("completed", BVal.bool tm.Completed), ("createdat", BVal.time tm.CreatedAt)] = none := by
    rfl
  simp only [Insert, hf, Marshal_ok tm h, hl, insertedDoc, if_true]

/-- `Insert` succeeds exactly when transport does not fail and the id is 12 bytes long,
and then appends `insertedDoc`. -/
theorem Insert_eq_ok (env : Env) (s s' : Store) (tm : todoModel) (h : Insert env s tm = .ok s') :
    env.storeFault = none ∧ tm.ID.length = 12 ∧ s' = s ++ [insertedDoc env tm] := by
  cases hf : env.storeFault with
  | some e => simp [Insert, hf] at h
  | none =>
    by_cases hl : tm.ID.length = 12
    · rw [Insert_ok env s tm hf hl] at h
      exact ⟨rfl, hl, (Except.ok.inj h).symm⟩
    · simp [Insert, hf, Marshal_bad tm hl] at h

theorem Unmarshal_insertedDoc (env : Env) (tm : todoModel) :
    Unmarshal (insertedDoc env tm) = tm := by
  rfl

theorem todolistOf_eq_map (todos : List todoModel) :
    todolistOf todos = todos.map (fun t =>
      { ID := Hex t.ID, Title := t.Title, Completed := t.Completed, CreatedAt := t.CreatedAt }) := by
  have key : ∀ (l : List todoModel) (acc : List todo),
      l.foldl (fun todolist t =>
        todolist ++ [{ ID := Hex t.ID, Title := t.Title, Completed := t.Completed,
                       CreatedAt := t.CreatedAt }]) acc
      = acc ++ l.map (fun t =>
        { ID := Hex t.ID, Title := t.Title, Completed := t.Completed,
          CreatedAt := t.CreatedAt }) := by
    intro l
    induction l with
    | nil => intro acc; simp
    | cons t rest ih => intro acc; simp [List.foldl, ih]
  simpa [todolistOf] using key todos []

theorem fromHexChar_isSome (c : Byte) : (fromHexChar c).isSome = isHexChar c := by
  unfold fromHexChar isHexChar
  by_cases h1 : 48 ≤ c.val ∧ c.val ≤ 57
  · simp [h1]
  · by_cases h2 : 97 ≤ c.val ∧ c.val ≤ 102
    · simp [h1, h2]
    · by_cases h3 : 65 ≤ c.val ∧ c.val ≤ 70
      · simp [h1, h2, h3]
      · simp [h1, h2, h3]

theorem fromHexChar_lt (c : Byte) (n : Nat) (h : fromHexChar c = some n) : n < 16 := by
  unfold fromHexChar at h
  split_ifs at h with h1 h2 h3 <;> simp at h <;> omega

/-- `hex.DecodeString` gives one byte for every two characters. -/
theorem hexDecode_length : ∀ (s : GoString) (d : List Byte),
    hexDecode s = some d → s.length = 2 * d.length
  | [], d, h => by
    simp [hexDecode] at h
    subst h
    rfl
  | [_], d, h => by simp [hexDecode] at h
  | a :: b :: rest, d, h => by
    unfold hexDecode at h
    cases ha : fromHexChar a <;> cases hb : fromHexChar b <;> cases hr : hexDecode rest <;>
      simp [ha, hb, hr] at h
    have := hexDecode_length rest _ hr
    subst h
    simp [this]
    omega

/-- `hex.DecodeString` succeeds exactly on an even number of hexadecimal characters. -/
theorem hexDecode_isSome : ∀ (s : GoString),
    (hexDecode s).isSome = true ↔ (s.length % 2 = 0 ∧ ∀ c ∈ s, isHexChar c = true)
  | [] => by simp [hexDecode]
  | [_] => by simp [hexDecode]
  | a :: b :: rest => by
    have ih := hexDecode_isSome rest
    have ha := fromHexChar_isSome a
    have hb := fromHexChar_isSome b
    unfold hexDecode
    have hlen : (rest.length + 1 + 1) % 2 = rest.length % 2 := by omega
    simp only [List.length_cons, hlen, List.mem_cons, forall_eq_or_imp, ← ha, ← hb]
    rcases hr : hexDecode rest with _ | tl <;> rw [hr] at ih <;> simp at ih <;>
      cases fromHexChar a <;> cases fromHexChar b <;> simp <;> tauto

/-- `bson.IsObjectIdHex` accepts exactly the strings of 24 hexadecimal characters. -/
theorem IsObjectIdHex_iff (s : GoString) : IsObjectIdHex s = true ↔ is24HexChars s := by
  unfold IsObjectIdHex is24HexChars
  by_cases hl : s.length = 24
  · simp [hl, hexDecode_isSome]
  · simp [hl]

/-- After `bson.IsObjectIdHex` has accepted a string, `bson.ObjectIdHex` does not panic
and gives a 12-byte id. -/
theorem ObjectIdHex_of_valid (s : GoString) (h : IsObjectIdHex s = true) :
    ∃ oid, ObjectIdHex s = some oid ∧ oid.length = 12 := by
  unfold IsObjectIdHex at h
  by_cases hl : s.length = 24
  · simp [hl] at h
    obtain ⟨d, hd⟩ := Option.isSome_iff_exists.mp h
    have := hexDecode_length s d hd
    have h12 : d.length = 12 := by omega
    exact ⟨d, by simp [ObjectIdHex, hd, h12], h12⟩
  · simp [hl] at h

/-- The hexadecimal digits are printable ASCII. -/
theorem hexDigit_range (n : Nat) (h : n < 16) : 33 ≤ (hexDigit n).val ∧ (hexDigit n).val < 128 := by
  interval_cases n <;> decide

/-- Decoding a digit of `hex.EncodeToString` gives its value back. -/
theorem fromHexChar_hexDigit (n : Nat) (h : n < 16) : fromHexChar (hexDigit n) = some n := by
  interval_cases n <;> rfl

/-- The hex form of an id is printable ASCII. -/
theorem Hex_range : ∀ (id : ObjectId), ∀ c ∈ Hex id, 33 ≤ c.val ∧ c.val < 128
  | [], c, hc => by simp [Hex] at hc
  | b :: rest, c, hc => by
    simp only [Hex, List.mem_cons] at hc
    rcases hc with rfl | rfl | hc
    · exact hexDigit_range _ (by omega)
    · exact hexDigit_range _ (by omega)
    · exact Hex_range rest c hc

/-- `hex.DecodeString` undoes `ObjectId.Hex`. -/
theorem hexDecode_Hex : ∀ (id : ObjectId), hexDecode (Hex id) = some id
  | [] => rfl
  | b :: rest => by
    have hb : Fin.ofNat (b.val / 16 * 16 + b.val % 16) = b := by
      apply Fin.ext
      simp only [Fin.ofNat, Nat.succ_eq_add_one]
      omega
    simp only [Hex, hexDecode, fromHexChar_hexDigit (b.val / 16) (by omega),
      fromHexChar_hexDigit (b.val % 16) (by omega), hexDecode_Hex rest]
    rw [hb]

/-- The hex form has two characters per byte. -/
theorem Hex_length : ∀ (id : ObjectId), (Hex id).length = 2 * id.length
  | [] => rfl
  | b :: rest => by simp [Hex, Hex_length rest]; omega

/-- A string of printable ASCII does not start with a white-space rune. -/
theorem leadingSpace_eq_zero (s : GoString) (h : ∀ c ∈ s, 33 ≤ c.val ∧ c.val < 128) :
    leadingSpace s = 0 := by
  cases s with
  | nil => rfl
  | cons b rest =>
    have hb := h b (by simp)
    unfold leadingSpace
    simp only
    split_ifs <;> first | rfl | omega

/-- A string of printable ASCII does not end with a white-space rune. -/
theorem trailingSpace_eq_zero (s : GoString) (h : ∀ c ∈ s, 33 ≤ c.val ∧ c.val < 128) :
    trailingSpace s = 0 := by
  cases s with
  | nil => rfl
  | cons b rest =>
    have hb := h b (by simp)
    unfold trailingSpace
    simp only
    rw [if_neg (by omega)]
    cases rest with
    | nil => rfl
    | cons c rest2 =>
      simp only
      rw [if_neg (by omega)]
      cases rest2 with
      | nil => rfl
      | cons d rest3 =>
        simp only
        have : leadingSpace [d, c, b] ≠ 3 := by
          unfold leadingSpace
          simp only
          split_ifs <;> omega
        rw [if_neg this]

/-- `strings.TrimSpace` leaves a string of printable ASCII as it is. -/
theorem TrimSpace_of_ascii (s : GoString) (h : ∀ c ∈ s, 33 ≤ c.val ∧ c.val < 128) :
    TrimSpace s = s := by
  have front : ∀ n, trimFront n s = s := by
    intro n
    cases n with
    | zero => rfl
    | succ n => simp [trimFront, leadingSpace_eq_zero s h]
  have back : ∀ n, trimBack n s.reverse = s.reverse := by
    intro n
    cases n with
    | zero => rfl
    | succ n =>
      simp [trimBack, trailingSpace_eq_zero s.reverse (by simpa using h)]
  simp only [TrimSpace, front, back, List.reverse_reverse]

/-- `strings.TrimSpace` leaves the hex form of an id as it is. -/
theorem TrimSpace_Hex (id : ObjectId) : TrimSpace (Hex id) = Hex id :=
  TrimSpace_of_ascii _ (Hex_range id)

/-- The hex form of a 12-byte id passes `bson.IsObjectIdHex`. -/
theorem IsObjectIdHex_Hex (id : ObjectId) (h : id.length = 12) : IsObjectIdHex (Hex id) = true := by
  simp [IsObjectIdHex, Hex_length, h, hexDecode_Hex]

/-- `bson.ObjectIdHex` undoes `ObjectId.Hex` on a 12-byte id. -/
theorem ObjectIdHex_Hex (id : ObjectId) (h : id.length = 12) : ObjectIdHex (Hex id) = some id := by
  simp [ObjectIdHex, hexDecode_Hex, h]

/-- `replaceFirst` reaches the first document that satisfies the selector. -/
theorem replaceFirst_append (q u : Doc) (d : Doc) (post : Store) (hd : selects q d = true) :
    ∀ (pre : Store), (∀ d' ∈ pre, selects q d' = false) →
      replaceFirst q u (pre ++ d :: post) = some (pre ++ replaceDoc d u :: post)
  | [], _ => by simp [replaceFirst, hd]
  | d' :: pre, h => by
    have h1 : selects q d' = false := h d' (by simp)
    have h2 := replaceFirst_append q u d post hd pre (fun x hx => h x (by simp [hx]))
    simp [replaceFirst, h1, h2]

/-- The selector of `updateTodo` picks a document exactly when the first `id` element of
the document is that ObjectId. -/
theorem selects_id (oid : ObjectId) (d : Doc) :
    selects [("id", .oid oid)] d = true ↔ d.lookup "id" = some (.oid oid) := by
  simp [selects]

/-- The element right after the first part of a list. -/
theorem getElem?_append_cons {α : Type} (l1 : List α) (x : α) (l2 : List α) :
    (l1 ++ x :: l2)[l1.length]? = some x := by
  induction l1 with
  | nil => simp
  | cons a l ih => simpa using ih

/-- A successful `addTodod` appends the document of the new todo, whose id is 12 bytes. -/
theorem addTodod_appended (env : Env) (s : Store) (t : todo) (d : Doc)
    (h : (addTodod env s (.ok t)).db = s ++ [d]) :
    env.newObjectId.length = 12
      ∧ d = insertedDoc env { ID := env.newObjectId, Title := t.Title, Completed := false,
                              CreatedAt := env.now } := by
  have hne : s ≠ s ++ [d] := by
    intro he
    have := congrArg List.length he
    simp at this
  unfold addTodod at h
  by_cases hT : t.Title = []
  · simp [hT] at h
  · simp only [hT, if_false] at h
    cases hIns : Insert env s { ID := env.newObjectId, Title := t.Title, Completed := false,
                                CreatedAt := env.now } with
    | error e =>
      rw [hIns] at h
      exact absurd h hne
    | ok s' =>
      rw [hIns] at h
      obtain ⟨_, h12, hs'⟩ := Insert_eq_ok env s s' _ hIns
      simp only at h
      rw [hs'] at h
      have := List.append_cancel_left h
      simp at this
      exact ⟨h12, this.symm⟩

/-- The first update of a created todo: while the document is still as `addTodod` wrote
it (`d`, appended by a successful `addTodod` that drew the id `env0.newObjectId`), with the
store reachable and no earlier document carrying the same id, an update request with that
id in hex and a non-empty title matches it.  The selector field name `id` is the name under
which `todoModel.ID` is persisted given the struct tags as written; the document is
replaced in place, and a list served next shows the body's title and completed at its
position. -/
theorem updateTodo_first_update (env env0 : Env) (s0 pre post : Store) (t0 t : todo)
    (d : Doc)
    (hCreated : (addTodod env0 s0 (.ok t0)).db = s0 ++ [d])
    (hFirst : ∀ d' ∈ pre, d'.lookup "id" ≠ some (.oid env0.newObjectId))
    (hStore : env.storeFault = none)
    (hTitle : t.Title ≠ []) :
    isFieldKey "ID" tagID "id" = true
      ∧ (updateTodo env (pre ++ d :: post) (Hex env0.newObjectId) (.ok t)).responses = []
      ∧ (∃ d', (updateTodo env (pre ++ d :: post) (Hex env0.newObjectId) (.ok t)).db
            = pre ++ d' :: post
          ∧ (Unmarshal d').Title = t.Title ∧ (Unmarshal d').Completed = t.Completed)
      ∧ ∀ env2 : Env, env2.storeFault = none →
          ∃ data entry,
            (fetchTodos env2
                (updateTodo env (pre ++ d :: post) (Hex env0.newObjectId) (.ok t)).db).responses
              = [(StatusOK, .M [("data", .todos data)])]
            ∧ data[pre.length]? = some entry
            ∧ entry.Title = t.Title ∧ entry.Completed = t.Completed := by
  obtain ⟨h12, hd⟩ := addTodod_appended env0 s0 t0 d hCreated
  have hsel : selects [("id", .oid env0.newObjectId)] d = true := by
    rw [hd]
    simp [selects, insertedDoc, List.lookup]
  have hpre : ∀ d' ∈ pre, selects [("id", .oid env0.newObjectId)] d' = false := by
    intro d' hd'
    cases hc : selects [("id", .oid env0.newObjectId)] d'
    · rfl
    · exact absurd ((selects_id _ _).mp hc) (hFirst d' hd')
  have hrep := replaceFirst_append [("id", .oid env0.newObjectId)]
    [("title", .str t.Title), ("completed", .bool t.Completed)] d post hsel pre hpre
  have hnew : Unmarshal (replaceDoc d [("title", .str t.Title), ("completed", .bool t.Completed)])
      = { ID := [], Title := t.Title, Completed := t.Completed, CreatedAt := zeroTime } := by
    rw [hd]
    rfl
  have hres : updateTodo env (pre ++ d :: post) (Hex env0.newObjectId) (.ok t)
      = { db := pre ++ replaceDoc d [("title", .str t.Title), ("completed", .bool t.Completed)]
                  :: post,
          trace := [.readBody,
            .store (.update (.doc [("id", .oid env0.newObjectId)])
              (.doc [("title", .str t.Title), ("completed", .bool t.Completed)]))] } := by
    simp [updateTodo, TrimSpace_Hex, IsObjectIdHex_Hex _ h12, ObjectIdHex_Hex _ h12, hTitle,
      Update, hStore, hrep]
  refine ⟨rfl, by simp [hres, Result.responses], ⟨_, by rw [hres], ?_, ?_⟩, ?_⟩
  · rw [hnew]
  · rw [hnew]
  · intro env2 hf
    refine ⟨todolistOf ((pre ++ replaceDoc d [("title", .str t.Title),
        ("completed", .bool t.Completed)] :: post).map Unmarshal),
      { ID := Hex [], Title := t.Title, Completed := t.Completed, CreatedAt := zeroTime },
      by simp [hres, fetchTodos, All, hf, Result.responses], ?_, rfl, rfl⟩
    simp only [todolistOf_eq_map, List.map_append, List.map_cons, hnew]
    simpa using getElem?_append_cons (pre.map Unmarshal |>.map (fun t =>
      ({ ID := Hex t.ID, Title := t.Title, Completed := t.Completed,
         CreatedAt := t.CreatedAt } : todo))) _ _

end Library

/-! ## The claims -/

/-- C1: for every store state and every create request whose body decodes to a todo with an
empty title, `addTodod` answers once, with the client-error status 400 Bad Request and the
message "Title is required", issues no store call, and leaves the store as it was. -/
theorem addTodod_rejects_empty_title (env : Env) (s : Store) (t : todo) (hTitle : t.Title = []) :
    (addTodod env s (.ok t)).responses
        = [(StatusBadRequest, .M [("message", .lit "Title is required")])]
      ∧ isClientError StatusBadRequest
      ∧ (addTodod env s (.ok t)).storeCalls = []
      ∧ (addTodod env s (.ok t)).db = s := by
  refine ⟨?_, by decide, ?_, ?_⟩ <;> simp [addTodod, hTitle, Result.responses, Result.storeCalls]

/-- Witness of C1: a body with an empty title (and `completed` set) against a store that
already holds a todo. -/
theorem addTodod_rejects_empty_title_witness :
    (⟨[], [], true, 0⟩ : todo).Title = []
      ∧ ((addTodod ⟨none, [1, 2, 3, 4, 5, 6, 7, 8, 9, 10, 11, 12], 1700, []⟩
            [[("id", .oid [7]), ("title", .str [66])]] (.ok ⟨[], [], true, 0⟩)).responses
          = [(StatusBadRequest, .M [("message", .lit "Title is required")])]
        ∧ isClientError StatusBadRequest
        ∧ (addTodod ⟨none, [1, 2, 3, 4, 5, 6, 7, 8, 9, 10, 11, 12], 1700, []⟩
            [[("id", .oid [7]), ("title", .str [66])]] (.ok ⟨[], [], true, 0⟩)).storeCalls = []
        ∧ (addTodod ⟨none, [1, 2, 3, 4, 5, 6, 7, 8, 9, 10, 11, 12], 1700, []⟩
            [[("id", .oid [7]), ("title", .str [66])]] (.ok ⟨[], [], true, 0⟩)).db
          = [[("id", .oid [7]), ("title", .str [66])]]) :=
  ⟨rfl, addTodod_rejects_empty_title _ _ _ rfl⟩

/-- C2: for every store state and every create request whose body decodes to a non-empty
title (whatever the body gives for `completed`), when the insert succeeds `addTodod` answers
once, 201 with the hex form of the generated id; the store is the old one followed by
exactly one new record, which reads back with that id, the request's title and
`completed = false`; and a list request served next (its find-all succeeding) returns one
more entry than the old store held, among them the entry with that id in hex, that title and
`completed = false`. -/
theorem addTodod_stores_and_lists (env : Env) (s s' : Store) (t : todo) (hTitle : t.Title ≠ [])
    (hInsert : Insert env s { ID := env.newObjectId, Title := t.Title, Completed := false,
                              CreatedAt := env.now } = .ok s') :
    (addTodod env s (.ok t)).responses
        = [(StatusCreated, .M [("message", .lit "Todo Added"),
                               ("todo_id", .text (Hex env.newObjectId))])]
      ∧ (∃ d, (addTodod env s (.ok t)).db = s ++ [d]
            ∧ Unmarshal d = { ID := env.newObjectId, Title := t.Title, Completed := false,
                              CreatedAt := env.now })
      ∧ ∀ env2 : Env, env2.storeFault = none →
          ∃ data, (fetchTodos env2 (addTodod env s (.ok t)).db).responses
              = [(StatusOK, .M [("data", .todos data)])]
            ∧ data.length = s.length + 1
            ∧ { ID := Hex env.newObjectId, Title := t.Title, Completed := false,
                CreatedAt := env.now } ∈ data := by
  obtain ⟨_, _, hs'⟩ := Insert_eq_ok env s s' _ hInsert
  have hdb : (addTodod env s (.ok t)).db = s' := by simp [addTodod, hTitle, hInsert]
  refine ⟨by simp [addTodod, hTitle, hInsert, Result.responses], ?_, ?_⟩
  · exact ⟨_, by rw [hdb, hs'], Unmarshal_insertedDoc env _⟩
  · intro env2 hf
    refine ⟨todolistOf ((addTodod env s (.ok t)).db.map Unmarshal),
      by simp [fetchTodos, All, hf, Result.responses], ?_, ?_⟩
    · simp [hdb, hs', todolistOf_eq_map]
    · simp [hdb, hs', todolistOf_eq_map, Unmarshal_insertedDoc]

/-- Witness of C2: `buyMilk` (title "Buy milk", `completed: true` in the body) into the
empty store, with the id `idA` drawn. -/
theorem addTodod_stores_and_lists_witness :
    (buyMilk.Title ≠ []
      ∧ Insert envA [] ⟨envA.newObjectId, buyMilk.Title, false, envA.now⟩
          = .ok [insertedDoc envA ⟨idA, buyMilk.Title, false, envA.now⟩])
    ∧ (addTodod envA [] (.ok buyMilk)).responses
        = [(StatusCreated, .M [("message", .lit "Todo Added"), ("todo_id", .text (Hex idA))])]
    ∧ ∃ d, (addTodod envA [] (.ok buyMilk)).db = [] ++ [d]
        ∧ Unmarshal d = ⟨idA, buyMilk.Title, false, envA.now⟩ :=
  ⟨⟨by decide, rfl⟩,
    (addTodod_stores_and_lists envA [] _ buyMilk (by decide) rfl).1,
    (addTodod_stores_and_lists envA [] _ buyMilk (by decide) rfl).2.1⟩

/-- C3: for every store state in which the find-all succeeds, `fetchTodos` answers once,
200 with a `data` list that has exactly one entry per stored document, in the store's
order (entry `i` comes from document `i`; the empty store gives the empty list); the id of
each entry is the hex encoding of the stored ID, and title, completed and createdAt are
the stored record's values.  The store is left as it was. -/
theorem fetchTodos_lists_every_stored_todo (env : Env) (s : Store) (todos : List todoModel)
    (hFind : All env s = .ok todos) :
    ∃ data : List todo,
      (fetchTodos env s).responses = [(StatusOK, .M [("data", .todos data)])]
        ∧ (fetchTodos env s).db = s
        ∧ data.length = s.length
        ∧ (∀ (i : Nat) (hs : i < s.length) (hd : i < data.length),
            data[i] = { ID := Hex (Unmarshal s[i]).ID, Title := (Unmarshal s[i]).Title,
                        Completed := (Unmarshal s[i]).Completed,
                        CreatedAt := (Unmarshal s[i]).CreatedAt })
        ∧ (s = [] → data = []) := by
  refine ⟨todolistOf todos, by simp [fetchTodos, hFind, Result.responses],
    by simp [fetchTodos, hFind], ?_⟩
  have ht : todos = s.map Unmarshal := by
    cases hf : env.storeFault <;> simp [All, hf] at hFind
    exact hFind.symm
  subst ht
  refine ⟨by simp [todolistOf_eq_map], ?_, ?_⟩
  · intro i hs hd
    simp [todolistOf_eq_map]
  · intro h
    subst h
    rfl

/-- Witness of C3: a store of two documents, one as `addTodod` writes it and one as
`updateTodo` leaves it. -/
theorem fetchTodos_lists_every_stored_todo_witness :
    All ⟨none, [], 0, []⟩
        [[("id", .oid [171, 205]), ("title", .str [66]), ("completed", .bool false),
          ("createdat", .time 1700)],
         [("title", .str [67]), ("completed", .bool true)]]
      = .ok [⟨[171, 205], [66], false, 1700⟩, ⟨[], [67], true, zeroTime⟩]
    ∧ ∃ data : List todo,
      (fetchTodos ⟨none, [], 0, []⟩
          [[("id", .oid [171, 205]), ("title", .str [66]), ("completed", .bool false),
            ("createdat", .time 1700)],
           [("title", .str [67]), ("completed", .bool true)]]).responses
        = [(StatusOK, .M [("data", .todos data)])]
      ∧ data.length = 2 :=
  ⟨rfl,
    (fetchTodos_lists_every_stored_todo ⟨none, [], 0, []⟩
      [[("id", .oid [171, 205]), ("title", .str [66]), ("completed", .bool false),
        ("createdat", .time 1700)],
       [("title", .str [67]), ("completed", .bool true)]] _ rfl).imp
      (fun _ h => ⟨h.1, h.2.2.1⟩)⟩

/-- C4: the claim is that deleting a created todo by its hex id answers 200 "Item Deleted"
and removes the record.  On the code it does not: `deleteTodo` hands `Remove` the bare id
where the driver takes a selector document, the call returns an error, the answer is 102
"Failed to delete", the store is as before and a list served next still shows the todo. -/
theorem deleteTodo_created_todo_fails :
    storeA = [insertedDoc envA ⟨idA, buyMilk.Title, false, envA.now⟩]
      ∧ (deleteTodo envOk storeA (Hex idA)).responses
          = [(StatusProcessing, .M [("message", .lit "Failed to delete"),
                                    ("error", .err .notADocument)])]
      ∧ (deleteTodo envOk storeA (Hex idA)).db = storeA
      ∧ (fetchTodos envOk (deleteTodo envOk storeA (Hex idA)).db).responses
          = [(StatusOK, .M [("data", .todos [⟨Hex idA, buyMilk.Title, false, envA.now⟩])])] := by
  refine ⟨?_, ?_, ?_, ?_⟩ <;> rfl

/-- C5: for every store state and every delete request: when the trimmed id parameter is
not exactly 24 hexadecimal characters, `deleteTodo` answers once, 400 "Invalid Id", and
issues no store call; when it is well-formed and no stored todo has that id, `deleteTodo`
answers once with the non-200 status 102 and "Failed to delete"; in both cases the 200
"Item Deleted" confirmation is not among the answers and the store is as before. -/
theorem deleteTodo_rejects_bad_or_unknown_id (env : Env) (s : Store) (idParam : GoString) :
    (¬ is24HexChars (TrimSpace idParam) →
        (deleteTodo env s idParam).responses
            = [(StatusBadRequest, .M [("message", .lit "Invalid Id")])]
          ∧ (deleteTodo env s idParam).storeCalls = []
          ∧ (StatusOK, Payload.M [("message", .lit "Item Deleted")])
              ∉ (deleteTodo env s idParam).responses
          ∧ (deleteTodo env s idParam).db = s)
      ∧ (is24HexChars (TrimSpace idParam) →
          (∀ oid, ObjectIdHex (TrimSpace idParam) = some oid → ∀ t ∈ persisted s, t.ID ≠ oid) →
          (∃ err, (deleteTodo env s idParam).responses
              = [(StatusProcessing, .M [("message", .lit "Failed to delete"),
                                        ("error", .err err)])])
            ∧ StatusProcessing ≠ StatusOK
            ∧ (StatusOK, Payload.M [("message", .lit "Item Deleted")])
                ∉ (deleteTodo env s idParam).responses
            ∧ (deleteTodo env s idParam).db = s) := by
  constructor
  · intro h
    have hv : IsObjectIdHex (TrimSpace idParam) = false := by
      cases hb : IsObjectIdHex (TrimSpace idParam)
      · rfl
      · exact absurd ((IsObjectIdHex_iff _).mp hb) h
    simp [deleteTodo, hv, Result.responses, Result.storeCalls, StatusBadRequest, StatusOK]
  · intro h _
    have hv : IsObjectIdHex (TrimSpace idParam) = true := (IsObjectIdHex_iff _).mpr h
    obtain ⟨oid, hoid, _⟩ := ObjectIdHex_of_valid _ hv
    have hrm : ∃ err, Remove env s (.val (.oid oid)) = .error err := by
      cases hf : env.storeFault <;> simp [Remove, hf]
    obtain ⟨err, herr⟩ := hrm
    refine ⟨⟨err, ?_⟩, by decide, ?_, ?_⟩ <;>
      simp [deleteTodo, hv, hoid, herr, Result.responses, StatusProcessing, StatusOK]

/-- Witness of C5: the parameter `" xyz "` is malformed; the hex form of `idB` is
well-formed and no todo of `storeA` has that id. -/
theorem deleteTodo_rejects_bad_or_unknown_id_witness :
    (¬ is24HexChars (TrimSpace [32, 120, 121, 122, 32])
        ∧ (deleteTodo envOk storeA [32, 120, 121, 122, 32]).responses
            = [(StatusBadRequest, .M [("message", .lit "Invalid Id")])])
      ∧ (is24HexChars (TrimSpace (Hex idB))
        ∧ (∀ oid, ObjectIdHex (TrimSpace (Hex idB)) = some oid →
            ∀ t ∈ persisted storeA, t.ID ≠ oid)
        ∧ (deleteTodo envOk storeA (Hex idB)).db = storeA) := by
  have hbad : ¬ is24HexChars (TrimSpace [32, 120, 121, 122, 32]) := by
    intro h
    exact absurd h.1 (by decide)
  have hgood : is24HexChars (TrimSpace (Hex idB)) :=
    (IsObjectIdHex_iff _).mp (by rw [TrimSpace_Hex]; exact IsObjectIdHex_Hex idB rfl)
  have hnone : ∀ oid, ObjectIdHex (TrimSpace (Hex idB)) = some oid →
      ∀ t ∈ persisted storeA, t.ID ≠ oid := by
    intro oid hoid t ht
    rw [TrimSpace_Hex, ObjectIdHex_Hex idB rfl] at hoid
    have hA : persisted storeA = [⟨idA, buyMilk.Title, false, envA.now⟩] := rfl
    rw [hA, List.mem_singleton] at ht
    rw [ht, ← Option.some.inj hoid]
    decide
  exact ⟨⟨hbad, ((deleteTodo_rejects_bad_or_unknown_id envOk storeA _).1 hbad).1⟩,
    hgood, hnone, ((deleteTodo_rejects_bad_or_unknown_id envOk storeA _).2 hgood hnone).2.2.2⟩

/-- C6: the claim is that an update with an invalid id or an empty title is rejected with a
client-error status.  On the code the empty-title branch of `updateTodo` answers with
`http.StatusBadGateway` (502), which is no client-error status, where the same check in
`addTodod` answers `http.StatusBadRequest` (400); the store is left as it was, and the
invalid id is answered 400 without the body being read. -/
theorem updateTodo_empty_title_is_502 :
    (updateTodo envOk storeA (Hex idA) (.ok noTitle)).responses
        = [(StatusBadGateway, .M [("message", .lit "the Title field is required")])]
      ∧ ¬ isClientError StatusBadGateway
      ∧ (updateTodo envOk storeA (Hex idA) (.ok noTitle)).db = storeA
      ∧ (addTodod envOk storeA (.ok noTitle)).responses
          = [(StatusBadRequest, .M [("message", .lit "Title is required")])]
      ∧ (updateTodo envOk storeA [120] (.ok noTitle)).trace
          = [.json StatusBadRequest (.M [("message", .lit "Invalid ID")])]
      ∧ (updateTodo envOk storeA [120] (.ok noTitle)).readsBody = false := by
  refine ⟨?_, by decide, ?_, ?_, ?_, ?_⟩ <;> rfl

/-- C7: the claim is that every update request carrying a created todo's hex id and a
non-empty title matches that record.  On the code only the first one does.  The selector
field name `id` is the name under which `todoModel.ID` is persisted given the struct tags
as written, so the first update of the todo in `storeA` matches and its title and
completed become the body's; but that update replaces the document whole and the `id`
element is gone, so the second request with the same hex id matches nothing: `Update`
returns `ErrNotFound`, the answer is 102 "failed to update", the store is as before and a
list served next still shows the values of the first body, not of the second. -/
theorem updateTodo_second_update_not_found :
    isFieldKey "ID" tagID "id" = true
      ∧ storeA = [insertedDoc envA ⟨idA, buyMilk.Title, false, envA.now⟩]
      ∧ (updateTodo envOk storeA (Hex idA) (.ok payRent)).responses = []
      ∧ persisted (updateTodo envOk storeA (Hex idA) (.ok payRent)).db
          = [⟨[], payRent.Title, payRent.Completed, zeroTime⟩]
      ∧ buyMilk.Title ≠ []
      ∧ (updateTodo envOk (updateTodo envOk storeA (Hex idA) (.ok payRent)).db (Hex idA)
            (.ok buyMilk)).responses
          = [(StatusProcessing, .M [("message", .lit "failed to update"),
                                    ("error", .err .notFound)])]
      ∧ (updateTodo envOk (updateTodo envOk storeA (Hex idA) (.ok payRent)).db (Hex idA)
            (.ok buyMilk)).db
          = (updateTodo envOk storeA (Hex idA) (.ok payRent)).db
      ∧ (fetchTodos envOk
            (updateTodo envOk (updateTodo envOk storeA (Hex idA) (.ok payRent)).db (Hex idA)
              (.ok buyMilk)).db).responses
          = [(StatusOK, .M [("data", .todos [⟨[], payRent.Title, payRent.Completed,
                                              zeroTime⟩])])]
      ∧ (buyMilk.Title ≠ payRent.Title ∧ buyMilk.Completed ≠ payRent.Completed) := by
  refine ⟨?_, ?_, ?_, ?_, by decide, ?_, ?_, ?_, by decide⟩ <;> rfl

/-- C8: the claim is that an update leaves the id and createdAt of every stored todo as
they were.  On the code it does not: `updateTodo` passes `Update` the plain document
`title, completed`, which replaces the matched document whole, so the stored id and
createdAt are gone; a list served next shows the todo with the empty id and the zero
time where it showed the hex form of `idA` and the creation time before. -/
theorem updateTodo_drops_id_and_createdAt :
    (fetchTodos envOk storeA).responses
        = [(StatusOK, .M [("data", .todos [⟨Hex idA, buyMilk.Title, false, envA.now⟩])])]
      ∧ (updateTodo envOk storeA (Hex idA) (.ok payRent)).responses = []
      ∧ persisted (updateTodo envOk storeA (Hex idA) (.ok payRent)).db
          = [⟨[], payRent.Title, false, zeroTime⟩]
      ∧ (fetchTodos envOk (updateTodo envOk storeA (Hex idA) (.ok payRent)).db).responses
          = [(StatusOK, .M [("data", .todos [⟨[], payRent.Title, false, zeroTime⟩])])]
      ∧ Hex idA ≠ [] ∧ envA.now ≠ zeroTime := by
  refine ⟨?_, ?_, ?_, ?_, by decide, by decide⟩ <;> rfl

/-- C9: the claim is that the invariant (non-empty titles, no two persisted todos with the
same id) holds after every sequence of requests from the empty store.  On the code two
creates with distinct generated ids keep it, and updating both todos breaks it: both
are then persisted without an id and read back with the same, empty one.  (The title
part is not broken here.) -/
theorem storeInvariant_broken_by_updates :
    idA ≠ idB
      ∧ storeInvariant (run [] [.create envA (.ok buyMilk), .create envB (.ok payRent)])
      ∧ (persisted (run [] [.create envA (.ok buyMilk), .create envB (.ok payRent),
            .update envOk (Hex idA) (.ok buyMilk), .update envOk (Hex idB) (.ok payRent)])).map
          (fun t => t.ID) = [[], []]
      ∧ ¬ storeInvariant (run [] [.create envA (.ok buyMilk), .create envB (.ok payRent),
            .update envOk (Hex idA) (.ok buyMilk), .update envOk (Hex idB) (.ok payRent)]) := by
  have h2 : persisted (run [] [.create envA (.ok buyMilk), .create envB (.ok payRent)])
      = [⟨idA, buyMilk.Title, false, envA.now⟩, ⟨idB, payRent.Title, false, envB.now⟩] := rfl
  have h4 : persisted (run [] [.create envA (.ok buyMilk), .create envB (.ok payRent),
        .update envOk (Hex idA) (.ok buyMilk), .update envOk (Hex idB) (.ok payRent)])
      = [⟨[], buyMilk.Title, true, zeroTime⟩, ⟨[], payRent.Title, false, zeroTime⟩] := rfl
  refine ⟨by decide, ?_, by rw [h4]; rfl, ?_⟩
  · unfold storeInvariant
    rw [h2]
    decide
  · unfold storeInvariant
    rw [h4]
    decide

/-- C10: for each of the four handlers and every request that reaches its store call, if
the store call returns an error `err` the handler answers exactly once, with the status 102
(not 200) and a body of a `message` string and the raw error under `error`; nothing else is
written. -/
theorem store_error_is_reported (env : Env) (s : Store) (err : StoreErr) :
    StatusProcessing ≠ StatusOK
      ∧ (All env s = .error err →
          (fetchTodos env s).responses
            = [(StatusProcessing, .M [("message", .lit "Failed to load todo list"),
                                      ("error", .err err)])])
      ∧ (∀ t : todo, t.Title ≠ [] →
          Insert env s { ID := env.newObjectId, Title := t.Title, Completed := false,
                         CreatedAt := env.now } = .error err →
          (addTodod env s (.ok t)).responses
            = [(StatusProcessing, .M [("message", .lit "Some Errors"), ("error", .err err)])])
      ∧ (∀ (idParam : GoString) (t : todo) (oid : ObjectId),
          IsObjectIdHex (TrimSpace idParam) = true → t.Title ≠ [] →
          ObjectIdHex (TrimSpace idParam) = some oid →
          Update env s (.doc [("id", .oid oid)])
            (.doc [("title", .str t.Title), ("completed", .bool t.Completed)]) = .error err →
          (updateTodo env s idParam (.ok t)).responses
            = [(StatusProcessing, .M [("message", .lit "failed to update"),
                                      ("error", .err err)])])
      ∧ (∀ (idParam : GoString) (oid : ObjectId),
          IsObjectIdHex (TrimSpace idParam) = true →
          ObjectIdHex (TrimSpace idParam) = some oid →
          Remove env s (.val (.oid oid)) = .error err →
          (deleteTodo env s idParam).responses
            = [(StatusProcessing, .M [("message", .lit "Failed to delete"),
                                      ("error", .err err)])]) := by
  refine ⟨by decide, ?_, ?_, ?_, ?_⟩
  · intro h
    simp [fetchTodos, h, Result.responses]
  · intro t hT h
    simp [addTodod, hT, h, Result.responses]
  · intro idParam t oid hv hT hoid h
    simp [updateTodo, hv, hT, hoid, h, Result.responses]
  · intro idParam oid hv hoid h
    simp [deleteTodo, hv, hoid, h, Result.responses]

/-- Witness of C10: the store is down for all four requests (`envDown`); the update and
the delete carry the hex form of `idA`. -/
theorem store_error_is_reported_witness :
    (All envDown storeA = .error (.transport 1)
      ∧ (fetchTodos envDown storeA).responses
          = [(StatusProcessing, .M [("message", .lit "Failed to load todo list"),
                                    ("error", .err (.transport 1))])])
    ∧ (payRent.Title ≠ []
      ∧ Insert envDown storeA ⟨envDown.newObjectId, payRent.Title, false, envDown.now⟩
          = .error (.transport 1)
      ∧ (addTodod envDown storeA (.ok payRent)).responses
          = [(StatusProcessing, .M [("message", .lit "Some Errors"),
                                    ("error", .err (.transport 1))])])
    ∧ (IsObjectIdHex (TrimSpace (Hex idA)) = true
      ∧ ObjectIdHex (TrimSpace (Hex idA)) = some idA
      ∧ Update envDown storeA (.doc [("id", .oid idA)])
          (.doc [("title", .str payRent.Title), ("completed", .bool payRent.Completed)])
          = .error (.transport 1)
      ∧ (updateTodo envDown storeA (Hex idA) (.ok payRent)).responses
          = [(StatusProcessing, .M [("message", .lit "failed to update"),
                                    ("error", .err (.transport 1))])])
    ∧ (Remove envDown storeA (.val (.oid idA)) = .error (.transport 1)
      ∧ (deleteTodo envDown storeA (Hex idA)).responses
          = [(StatusProcessing, .M [("message", .lit "Failed to delete"),
                                    ("error", .err (.transport 1))])]) :=
  ⟨⟨rfl, (store_error_is_reported envDown storeA (.transport 1)).2.1 rfl⟩,
    ⟨by decide, rfl,
      (store_error_is_reported envDown storeA (.transport 1)).2.2.1 payRent (by decide) rfl⟩,
    ⟨rfl, rfl, rfl,
      (store_error_is_reported envDown storeA (.transport 1)).2.2.2.1 (Hex idA) payRent idA
        rfl (by decide) rfl rfl⟩,
    ⟨rfl,
      (store_error_is_reported envDown storeA (.transport 1)).2.2.2.2 (Hex idA) idA
        rfl rfl rfl⟩⟩

end TodoGolang
